import Mathlib

/-!
Shallow embedding of the derived-view pipeline of the movie-dashboard
application (`src/App.jsx`): genre index (`genreMap`), genre filter
(`filteredMovies`), sort (`sortedMovies`), title search (`searchedMovies`)
and the per-genre rating aggregate (`genreRatings`), together with proofs
of the specified properties.

Conventions of the embedding:
* JavaScript numbers are modelled as `ℚ` (ratings, popularity) and `Int`
  (identifiers); strings as Lean `String`.
* `Array.prototype.sort` is a stable sort whose comparator decides order by
  the sign of a number; it is modelled by `List.insertionSort` with the
  relation `comparator a b ≤ 0`, which is stable in the same way.
* `String.prototype.localeCompare` is modelled as lexicographic comparison
  returning -1/0/1 (`strCompare`).
* `Array.prototype.includes` on integer arrays is membership.
* JavaScript object lookup `genreMap[id]` is `Option`-valued; `Array.join`
  renders an absent (`undefined`) entry as the empty string.
-/

namespace MovieDashboard

/-- A movie record as fetched from the API (fields used by `App.jsx`). -/
structure Movie where
  id : Int
  title : String
  release_date : String
  vote_average : ℚ
  popularity : ℚ
  genre_ids : List Int
deriving DecidableEq, Repr

/-- A genre record: identifier and locale-dependent display name. -/
structure Genre where
  id : Int
  name : String
deriving DecidableEq, Repr

/-- One bar of the "Average Rating by Genre" chart data. -/
structure GenreRating where
  genre : String
  rating : ℚ
deriving DecidableEq, Repr

/-- The sort key of `sortConfig.key` ("title" | "year" | "rating"). -/
inductive SortKey
  | title
  | year
  | rating
deriving DecidableEq, Repr

/-- The sort direction of `sortConfig.direction` ("asc" | "desc"). -/
inductive SortDir
  | asc
  | desc
deriving DecidableEq, Repr

/-- Lexicographic three-way comparison of character lists: the model of
`String.prototype.localeCompare` used by the title and year comparators. -/
def strCmpAux : List Char → List Char → Int
  | [], [] => 0
  | [], _ :: _ => -1
  | _ :: _, [] => 1
  | a :: as, b :: bs =>
    if a < b then -1 else if b < a then 1 else strCmpAux as bs

/-- Model of `a.localeCompare(b)`, modelled as lexicographic comparison. -/
def strCompare (a b : String) : Int :=
  strCmpAux a.data b.data

/-- The comparator passed to `Array.prototype.sort` in `sortedMovies`
(`src/App.jsx` lines 127-144), one branch per sort key; the descending
branch swaps the operands exactly as the source does. -/
def movieComparator (key : SortKey) (dir : SortDir) (a b : Movie) : ℚ :=
  match key with
  | .title =>
    match dir with
    | .asc => (strCompare a.title b.title : ℚ)
    | .desc => (strCompare b.title a.title : ℚ)
  | .year =>
    match dir with
    | .asc => (strCompare a.release_date b.release_date : ℚ)
    | .desc => (strCompare b.release_date a.release_date : ℚ)
  | .rating =>
    match dir with
    | .asc => a.vote_average - b.vote_average
    | .desc => b.vote_average - a.vote_average

/-- The order relation induced by the comparator: `a` may come before `b`
when the comparator is non-positive (a stable sort keeps `a` first on 0). -/
def movieOrder (key : SortKey) (dir : SortDir) (a b : Movie) : Prop :=
  movieComparator key dir a b ≤ 0

instance (key : SortKey) (dir : SortDir) : DecidableRel (movieOrder key dir) :=
  fun a b => inferInstanceAs (Decidable (movieComparator key dir a b ≤ 0))

/-- Stage `sortedMovies` (`src/App.jsx` lines 126-146): a stable sort of the list
under the comparator for the active key and direction. -/
def sortMovies (key : SortKey) (dir : SortDir) (l : List Movie) : List Movie :=
  l.insertionSort (movieOrder key dir)

/-- Helper for `parseInt(selectedGenre)`: optional sign followed by leading decimal
digits; `none` models `NaN` (no digit to parse). -/
def takeDigits : List Char → List Nat
  | [] => []
  | c :: cs =>
    if '0' ≤ c ∧ c ≤ '9' then (c.toNat - '0'.toNat) :: takeDigits cs else []

/-- Digits-to-number step of `jsParseInt`. -/
def digitsToNat? (l : List Char) : Option Nat :=
  match takeDigits l with
  | [] => none
  | ds => some (ds.foldl (fun a d => 10 * a + d) 0)

/-- The model of JavaScript `parseInt` on the genre-filter string. -/
def jsParseInt (s : String) : Option Int :=
  match s.data with
  | '-' :: rest => (digitsToNat? rest).map (fun n => -(n : Int))
  | l => (digitsToNat? l).map (fun n => (n : Int))

/-- Stage `filteredMovies` (`src/App.jsx` lines 117-123): identity for "all",
otherwise keep the movies whose `genre_ids` contains the parsed id. -/
def filteredMovies (movies : List Movie) (selectedGenre : String) : List Movie :=
  if selectedGenre = "all" then movies
  else
    movies.filter (fun m =>
      match jsParseInt selectedGenre with
      | some g => decide (g ∈ m.genre_ids)
      | none => false)

/-- Model of `String.prototype.toLowerCase`, character-wise. -/
def toLowerStr (s : String) : String :=
  ⟨s.data.map Char.toLower⟩

/-- Tests whether `pat` is a prefix of `text` (helper for substring containment). -/
def isPrefixCh : List Char → List Char → Bool
  | [], _ => true
  | _ :: _, [] => false
  | a :: as, b :: bs => a = b && isPrefixCh as bs

/-- Model of `text.includes(pat)`: `pat` occurs contiguously somewhere in `text`. -/
def includesCh (text pat : List Char) : Bool :=
  match text with
  | [] => pat.isEmpty
  | _ :: rest => isPrefixCh pat text || includesCh rest pat

/-- Model of `s.includes(pat)` on strings. -/
def strIncludes (s pat : String) : Bool :=
  includesCh s.data pat.data

/-- Stage `searchedMovies` (`src/App.jsx` lines 149-153): keep the movies whose
lower-cased title contains the lower-cased query as a substring. -/
def searchMovies (l : List Movie) (q : String) : List Movie :=
  l.filter (fun m => strIncludes (toLowerStr m.title) (toLowerStr q))

/-- The movies whose genre-identifier set contains `gid`
(`movies.filter((movie) => movie.genre_ids.includes(genre.id))`). -/
def matchingMovies (movies : List Movie) (gid : Int) : List Movie :=
  movies.filter (fun m => decide (gid ∈ m.genre_ids))

/-- Mean rating: `genreMovies.length ? genreMovies.reduce(...)/genreMovies.length : 0`:
the arithmetic mean of the average ratings, or 0 for an empty list. -/
def avgRating (l : List Movie) : ℚ :=
  if l.length = 0 then 0 else (l.map Movie.vote_average).sum / (l.length : ℚ)

/-- Aggregate `genreRatings` (`src/App.jsx` lines 156-171): one candidate entry per
genre (name, mean rating over the full movie list), keeping only entries
with a strictly positive rating. -/
def genreRatings (movies : List Movie) (genres : List Genre) : List GenreRating :=
  (genres.map (fun g =>
      { genre := g.name, rating := avgRating (matchingMovies movies g.id) }))
    |>.filter (fun d => decide ((0 : ℚ) < d.rating))

/-- Genre index `genreMap` (`src/App.jsx` lines 111-114): the genre index built by
`reduce`, later entries overriding earlier ones; lookup of an absent id is
`none` (JavaScript `undefined`). -/
def genreMap (genres : List Genre) : Int → Option String :=
  genres.foldl (fun acc g => fun i => if i = g.id then some g.name else acc i)
    (fun _ => none)

/-- One element of `movie.genre_ids.map((id) => genreMap[id])` as it is
rendered by `.join(", ")`: `undefined` becomes the empty string. -/
def renderGenreName (genres : List Genre) (i : Int) : String :=
  (genreMap genres i).getD ""

/-- Rendering `movie.genre_ids.map((id) => genreMap[id]).join(", ")`
(`src/App.jsx` lines 342-345). -/
def renderGenreNames (genres : List Genre) (ids : List Int) : String :=
  String.intercalate ", " (ids.map (renderGenreName genres))

/-- The preference state of the dashboard: selected genre filter, search
query, sort key and sort direction. -/
structure Prefs where
  selectedGenre : String
  searchQuery : String
  sortKey : SortKey
  sortDir : SortDir

/-- The derived view computed by `App` on each render: the filter → sort →
search pipeline plus the independently computed genre rating aggregate. -/
structure DerivedView where
  filtered : List Movie
  sorted : List Movie
  searched : List Movie
  aggregate : List GenreRating
deriving Repr

/-- The full derived-view computation of `App` (`src/App.jsx` lines
117-171), as a function of the fetched collections and preference state. -/
def appDerived (movies : List Movie) (genres : List Genre) (p : Prefs) :
    DerivedView :=
  let filtered := filteredMovies movies p.selectedGenre
  let sorted := sortMovies p.sortKey p.sortDir filtered
  let searched := searchMovies sorted p.searchQuery
  { filtered := filtered
    sorted := sorted
    searched := searched
    aggregate := genreRatings movies genres }

/-! ### Properties of the string comparator -/

theorem strCmpAux_swap (a : List Char) : ∀ b, strCmpAux b a = -strCmpAux a b := by
  induction a with
  | nil => intro b; cases b <;> rfl
  | cons x xs ih =>
    intro b
    cases b with
    | nil => rfl
    | cons y ys =>
      simp only [strCmpAux]
      rcases lt_trichotomy x y with h | h | h
      · simp [h, asymm h]
      · subst h
        simp [lt_irrefl, ih ys]
      · simp [h, asymm h]

theorem strCmpAux_le_trans : ∀ {a b c : List Char},
    strCmpAux a b ≤ 0 → strCmpAux b c ≤ 0 → strCmpAux a c ≤ 0 := by
  intro a
  induction a with
  | nil =>
    intro b c _ _
    cases c <;> simp [strCmpAux]
  | cons x xs ih =>
    intro b c h1 h2
    cases b with
    | nil => simp [strCmpAux] at h1
    | cons y ys =>
      cases c with
      | nil => simp [strCmpAux] at h2
      | cons z zs =>
        simp only [strCmpAux] at h1 h2 ⊢
        have hb : x < y ∨ (x = y ∧ strCmpAux xs ys ≤ 0) := by
          by_cases hxy : x < y
          · exact Or.inl hxy
          · by_cases hyx : y < x
            · rw [if_neg hxy, if_pos hyx] at h1; norm_num at h1
            · refine Or.inr ⟨le_antisymm (not_lt.mp hyx) (not_lt.mp hxy), ?_⟩
              rwa [if_neg hxy, if_neg hyx] at h1
        have hc : y < z ∨ (y = z ∧ strCmpAux ys zs ≤ 0) := by
          by_cases hyz : y < z
          · exact Or.inl hyz
          · by_cases hzy : z < y
            · rw [if_neg hyz, if_pos hzy] at h2; norm_num at h2
            · refine Or.inr ⟨le_antisymm (not_lt.mp hzy) (not_lt.mp hyz), ?_⟩
              rwa [if_neg hyz, if_neg hzy] at h2
        rcases hb with hxy | ⟨hxy, hxs⟩
        · rcases hc with hyz | ⟨hyz, _⟩
          · rw [if_pos (lt_trans hxy hyz)]; norm_num
          · rw [if_pos (lt_of_lt_of_le hxy (le_of_eq hyz))]; norm_num
        · rcases hc with hyz | ⟨hyz, hys⟩
          · rw [if_pos (lt_of_le_of_lt (le_of_eq hxy) hyz)]; norm_num
          · subst hxy; subst hyz
            rw [if_neg (lt_irrefl x), if_neg (lt_irrefl x)]
            exact ih hxs hys

theorem eq_nil_of_strCmpAux_nil_le {a : List Char} (h : strCmpAux a [] ≤ 0) :
    a = [] := by
  cases a with
  | nil => rfl
  | cons x xs => norm_num [strCmpAux] at h

/-! ### Properties of the movie comparator and the sort stage -/

theorem movieComparator_swap (key : SortKey) (dir : SortDir) (a b : Movie) :
    movieComparator key dir b a = -movieComparator key dir a b := by
  cases key <;> cases dir <;>
    simp only [movieComparator, strCompare] <;>
    first
      | (rw [strCmpAux_swap]; push_cast; ring)
      | ring

theorem movieComparator_desc_swap (key : SortKey) (a b : Movie) :
    movieComparator key .desc a b = movieComparator key .asc b a := by
  cases key <;> rfl

theorem movieOrder_total (key : SortKey) (dir : SortDir) :
    ∀ a b, movieOrder key dir a b ∨ movieOrder key dir b a := by
  intro a b
  unfold movieOrder
  rcases le_total (movieComparator key dir a b) 0 with h | h
  · exact Or.inl h
  · right
    rw [movieComparator_swap]
    linarith

theorem movieOrder_trans (key : SortKey) (dir : SortDir) :
    ∀ a b c, movieOrder key dir a b → movieOrder key dir b c →
      movieOrder key dir a c := by
  intro a b c h1 h2
  cases key <;> cases dir <;>
    simp only [movieOrder, movieComparator, strCompare, Int.cast_nonpos]
      at h1 h2 ⊢ <;>
    first
      | exact strCmpAux_le_trans h1 h2
      | exact strCmpAux_le_trans h2 h1
      | linarith

theorem sortMovies_perm (key : SortKey) (dir : SortDir) (l : List Movie) :
    List.Perm (sortMovies key dir l) l :=
  List.perm_insertionSort _ l

theorem sortMovies_sorted (key : SortKey) (dir : SortDir) (l : List Movie) :
    List.Pairwise (movieOrder key dir) (sortMovies key dir l) := by
  haveI : IsTotal Movie (movieOrder key dir) := ⟨movieOrder_total key dir⟩
  haveI : IsTrans Movie (movieOrder key dir) := ⟨movieOrder_trans key dir⟩
  exact List.sorted_insertionSort _ l

/-! ### Properties of the search stage -/

theorem isPrefixCh_iff : ∀ {p t : List Char},
    isPrefixCh p t = true ↔ List.IsPrefix p t := by
  intro p
  induction p with
  | nil =>
    intro t
    simp [isPrefixCh]
  | cons a as ih =>
    intro t
    cases t with
    | nil => simp [isPrefixCh]
    | cons b bs =>
      simp [isPrefixCh, ih, List.cons_prefix_cons]

theorem includesCh_nil (t : List Char) : includesCh t [] = true := by
  cases t <;> rfl

theorem includesCh_iff : ∀ {t p : List Char},
    includesCh t p = true ↔ List.IsInfix p t := by
  intro t
  induction t with
  | nil =>
    intro p
    simp [includesCh, List.isEmpty_iff]
  | cons c cs ih =>
    intro p
    rw [includesCh, Bool.or_eq_true, isPrefixCh_iff, ih, List.infix_cons_iff]

/-! ### Properties of the genre index and the aggregate -/

theorem genreMap_foldl_absent :
    ∀ (gs : List Genre) (acc : Int → Option String) (i : Int),
      i ∉ gs.map Genre.id →
      gs.foldl (fun acc g => fun j => if j = g.id then some g.name else acc j)
        acc i = acc i := by
  intro gs
  induction gs with
  | nil =>
    intro acc i _
    rfl
  | cons g gs ih =>
    intro acc i hi
    simp only [List.map_cons, List.mem_cons, not_or] at hi
    simp only [List.foldl_cons]
    rw [ih _ i hi.2]
    simp [hi.1]

theorem avgRating_pos_ne_nil {l : List Movie} (h : 0 < avgRating l) : l ≠ [] := by
  intro hnil
  subst hnil
  simp [avgRating] at h

/-! ### Concrete fixtures used in witnesses and counterexamples -/

/-- A movie with rating 5 and genre set {1}. -/
def movieA : Movie :=
  { id := 1, title := "Alpha", release_date := "2019-05-01",
    vote_average := 5, popularity := 10, genre_ids := [1] }

/-- A movie with the same rating 5 as `movieA` and genre set {1, 2}. -/
def movieB : Movie :=
  { id := 2, title := "Beta", release_date := "2021-03-04",
    vote_average := 5, popularity := 20, genre_ids := [1, 2] }

/-- A movie with rating 3, distinct from `movieA`'s rating. -/
def movieC : Movie :=
  { id := 4, title := "Delta", release_date := "2018-01-01",
    vote_average := 3, popularity := 2, genre_ids := [2] }

/-- A movie whose average rating is 0, matching genre 7. -/
def movieZero : Movie :=
  { id := 3, title := "Gamma", release_date := "2022-07-09",
    vote_average := 0, popularity := 5, genre_ids := [7] }

/-- A movie whose release date is the empty string. -/
def movieNoDate : Movie :=
  { id := 5, title := "Epsilon", release_date := "",
    vote_average := 6, popularity := 1, genre_ids := [] }

/-- Genre 7, matched only by `movieZero`. -/
def actionGenre : Genre := { id := 7, name := "Action" }

/-- Genre 2, matched by `movieB` and `movieC`. -/
def dramaGenre : Genre := { id := 2, name := "Drama" }

/-! ### Claim theorems -/

/-- Claim C1, counterexample: the claim `sort(M, k, desc) == reverse(sort(M, k, asc))`
fails on the code: the sort is stable, so two movies tied on the key (here
`movieA` and `movieB`, both with rating 5) keep their input order in *both*
directions, while reversing the ascending result swaps them. -/
theorem c1_counterexample :
    sortMovies .rating .desc [movieA, movieB] ≠
      (sortMovies .rating .asc [movieA, movieB]).reverse := by
  norm_num [sortMovies, List.insertionSort, List.orderedInsert, movieOrder,
    movieComparator, movieA, movieB]

/-- Claim C1, amended: if no two movies of `M` compare equal under the
ascending comparator for key `k` (no ties on the key), then sorting in
descending direction yields exactly the reverse of sorting in ascending
direction: `sort(M, k, desc) == reverse(sort(M, k, asc))`. -/
theorem sortDesc_eq_reverse_sortAsc (key : SortKey) (M : List Movie)
    (hne : M.Pairwise (fun a b => movieComparator key .asc a b ≠ 0)) :
    sortMovies key .desc M = (sortMovies key .asc M).reverse := by
  have hsymm : ∀ {x y : Movie}, movieComparator key .asc x y ≠ 0 →
      movieComparator key .asc y x ≠ 0 := by
    intro x y h
    rw [movieComparator_swap]
    simpa using h
  have hpermA : List.Perm (sortMovies key .asc M) M := sortMovies_perm _ _ _
  have hsortA := sortMovies_sorted key .asc M
  have hneA : (sortMovies key .asc M).Pairwise
      (fun a b => movieComparator key .asc a b ≠ 0) :=
    (hpermA.pairwise_iff (fun h => hsymm h)).mpr hne
  have hstrictA : (sortMovies key .asc M).Pairwise
      (fun a b => movieComparator key .asc a b < 0) :=
    (hsortA.and hneA).imp (fun h => lt_of_le_of_ne h.1 h.2)
  have hpermD : List.Perm (sortMovies key .desc M) M := sortMovies_perm _ _ _
  have hsortD := sortMovies_sorted key .desc M
  have hneD : (sortMovies key .desc M).Pairwise
      (fun a b => movieComparator key .asc a b ≠ 0) :=
    (hpermD.pairwise_iff (fun h => hsymm h)).mpr hne
  have hstrictD : (sortMovies key .desc M).Pairwise
      (fun a b => movieComparator key .asc b a < 0) := by
    refine (hsortD.and hneD).imp ?_
    intro a b h
    have h1 : movieComparator key .asc b a ≤ 0 := by
      have h0 := h.1
      rwa [movieOrder, movieComparator_desc_swap] at h0
    exact lt_of_le_of_ne h1 (hsymm h.2)
  have hrev : (sortMovies key .desc M).reverse.Pairwise
      (fun a b => movieComparator key .asc a b < 0) :=
    List.pairwise_reverse.mpr hstrictD
  haveI : IsAntisymm Movie (fun a b => movieComparator key .asc a b < 0) := by
    constructor
    intro a b h1 h2
    rw [movieComparator_swap] at h2
    exact absurd h1 (by linarith)
  have heq : (sortMovies key .desc M).reverse = sortMovies key .asc M :=
    List.eq_of_perm_of_sorted
      (((sortMovies key .desc M).reverse_perm.trans hpermD).trans hpermA.symm)
      hrev hstrictA
  calc sortMovies key .desc M
      = (sortMovies key .desc M).reverse.reverse := (List.reverse_reverse _).symm
    _ = (sortMovies key .asc M).reverse := by rw [heq]

/-- Witness for the amended C1 at a concrete tie-free input:
`movieA` (rating 5) and `movieC` (rating 3). -/
theorem sortDesc_eq_reverse_sortAsc_witness :
    sortMovies .rating .desc [movieA, movieC] =
      (sortMovies .rating .asc [movieA, movieC]).reverse :=
  sortDesc_eq_reverse_sortAsc .rating [movieA, movieC] (by
    norm_num [List.pairwise_cons, movieComparator, movieA, movieC])

/-- Claim C9: sorting is idempotent: for every movie list `M`, sort key and
direction, `sort(sort(M, k, dir), k, dir) == sort(M, k, dir)` (the output
of the sort is sorted, and a stable sort leaves a sorted list unchanged). -/
theorem sortMovies_idempotent (key : SortKey) (dir : SortDir) (M : List Movie) :
    sortMovies key dir (sortMovies key dir M) = sortMovies key dir M := by
  haveI : IsTotal Movie (movieOrder key dir) := ⟨movieOrder_total key dir⟩
  haveI : IsTrans Movie (movieOrder key dir) := ⟨movieOrder_trans key dir⟩
  exact List.Sorted.insertionSort_eq (List.sorted_insertionSort _ M)

/-- Claim C3: the genre rating aggregate is a function of the movie and genre
collections only: two runs of the derived-view computation with the same
collections but arbitrary (possibly different) preference states — genre
filter, search query, sort key and direction — produce identical aggregates,
i.e. the aggregate is always computed over the full unfiltered movie list. -/
theorem aggregate_independent_of_prefs (movies : List Movie)
    (genres : List Genre) (p₁ p₂ : Prefs) :
    (appDerived movies genres p₁).aggregate =
      (appDerived movies genres p₂).aggregate := rfl

/-- Claim C5: the filter stage is the identity for "all"; for every other
filter string that parses to an identifier `g`, it returns exactly the
movies whose genre-identifier set contains `g`, as a sublist of `M`
(original relative order preserved; an empty result is a valid value). -/
theorem filter_stage_spec (M : List Movie) :
    filteredMovies M "all" = M ∧
    ∀ (s : String) (g : Int), s ≠ "all" → jsParseInt s = some g →
      List.Sublist (filteredMovies M s) M ∧
      ∀ m, m ∈ filteredMovies M s ↔ (m ∈ M ∧ g ∈ m.genre_ids) := by
  constructor
  · simp [filteredMovies]
  · intro s g hs hg
    have hdef : filteredMovies M s =
        M.filter (fun m => decide (g ∈ m.genre_ids)) := by
      simp only [filteredMovies, if_neg hs, hg]
    constructor
    · rw [hdef]
      exact List.filter_sublist _
    · intro m
      rw [hdef]
      simp [List.mem_filter]

/-- Witness for C5 at a concrete input: filtering `[movieB]` by the genre
string "2" keeps `movieB`, whose genre set contains 2. -/
theorem filter_stage_spec_witness :
    List.Sublist (filteredMovies [movieB] "2") [movieB] ∧
    ∀ m, m ∈ filteredMovies [movieB] "2" ↔
      (m ∈ [movieB] ∧ (2 : Int) ∈ m.genre_ids) :=
  (filter_stage_spec [movieB]).2 "2" 2 (by decide) (by decide)

/-- Claim C6: searching with the empty query returns the list unchanged; the
search result is a sublist of the input (input order preserved, no
additions); and a movie of `M` is in the result exactly when its
lower-cased title contains the lower-cased query as a contiguous substring. -/
theorem search_stage_spec (M : List Movie) (q : String) :
    searchMovies M "" = M ∧
    List.Sublist (searchMovies M q) M ∧
    ∀ m, m ∈ M →
      (m ∈ searchMovies M q ↔
        List.IsInfix (toLowerStr q).data (toLowerStr m.title).data) := by
  refine ⟨?_, List.filter_sublist _, ?_⟩
  · rw [searchMovies, List.filter_eq_self]
    intro a _
    exact includesCh_nil _
  · intro m hm
    simp only [searchMovies, List.mem_filter, hm, true_and]
    exact includesCh_iff

/-- Witness for C6 at a concrete input: the query "alp" matches the title
"Alpha" of `movieA` case-insensitively. -/
theorem search_stage_spec_witness :
    movieA ∈ searchMovies [movieA] "ALP" ↔
      List.IsInfix (toLowerStr "ALP").data (toLowerStr movieA.title).data :=
  (search_stage_spec [movieA] "ALP").2.2 movieA (by decide)

/-- Claim C7: the derived view composes the stages in the fixed order
filter → sort → search, and the composed movie list is itself sorted under
the active key and direction: restricting a sorted list by the substring
search (a `filter`) does not reorder it. -/
theorem pipeline_composition_sorted (movies : List Movie)
    (genres : List Genre) (p : Prefs) :
    (appDerived movies genres p).searched =
      searchMovies
        (sortMovies p.sortKey p.sortDir (filteredMovies movies p.selectedGenre))
        p.searchQuery ∧
    (appDerived movies genres p).searched.Pairwise
      (movieOrder p.sortKey p.sortDir) := by
  refine ⟨rfl, ?_⟩
  have hs := sortMovies_sorted p.sortKey p.sortDir
    (filteredMovies movies p.selectedGenre)
  have hsub : List.Sublist ((appDerived movies genres p).searched)
      (sortMovies p.sortKey p.sortDir (filteredMovies movies p.selectedGenre)) :=
    List.filter_sublist _
  exact List.Pairwise.sublist hsub hs

/-- Claim C8: sorting by the year key is total (the output is a permutation
of the input, so the sort terminates without raising on every movie list,
including movies whose release date is the empty string), and under the
lexicographic comparator every movie with an empty release date precedes
every movie with a non-empty one in ascending order: empty dates sort
first. -/
theorem sort_year_empty_date_first (M : List Movie) :
    List.Perm (sortMovies .year .asc M) M ∧
    (sortMovies .year .asc M).Pairwise
      (fun a b => b.release_date = "" → a.release_date = "") := by
  refine ⟨sortMovies_perm _ _ _, ?_⟩
  refine (sortMovies_sorted .year .asc M).imp ?_
  intro a b h hb
  have h' : strCmpAux a.release_date.data b.release_date.data ≤ 0 := by
    simpa [movieOrder, movieComparator, strCompare, Int.cast_nonpos] using h
  rw [hb] at h'
  have hdata : a.release_date.data = [] := eq_nil_of_strCmpAux_nil_le h'
  calc a.release_date = String.mk a.release_date.data := rfl
    _ = String.mk [] := by rw [hdata]
    _ = "" := rfl

/-- Witness for C8 at a concrete input containing a movie with an empty
release date (`movieNoDate`). -/
theorem sort_year_empty_date_first_witness :
    List.Perm (sortMovies .year .asc [movieA, movieNoDate])
      [movieA, movieNoDate] ∧
    (sortMovies .year .asc [movieA, movieNoDate]).Pairwise
      (fun a b => b.release_date = "" → a.release_date = "") :=
  sort_year_empty_date_first [movieA, movieNoDate]

/-- Claim C4: a genre identifier absent from the genre index resolves to
`none` (JavaScript `undefined`, the safe placeholder) rather than a crash,
and the rendering of that identifier in the joined genre-name list is the
empty string: the lookup fault does not propagate. -/
theorem genreMap_absent_safe (gs : List Genre) (i : Int)
    (h : i ∉ gs.map Genre.id) :
    genreMap gs i = none ∧ renderGenreName gs i = "" ∧
      renderGenreNames gs [i] = "" := by
  have hnone : genreMap gs i = none := genreMap_foldl_absent gs _ i h
  refine ⟨hnone, ?_, ?_⟩
  · simp [renderGenreName, hnone]
  · simp only [renderGenreNames, renderGenreName, List.map_cons, List.map_nil,
      hnone, Option.getD_none]
    rfl

/-- Witness for C4 at a concrete input: id 99 is absent from a genre index
containing only genre 7. -/
theorem genreMap_absent_safe_witness :
    genreMap [actionGenre] 99 = none ∧
      renderGenreName [actionGenre] 99 = "" ∧
      renderGenreNames [actionGenre] [99] = "" :=
  genreMap_absent_safe [actionGenre] 99 (by decide)

/-- Claim C2, counterexample: the claim "the aggregate contains an entry for
each genre with at least one matching movie" fails on the code: genre 7
has the matching movie `movieZero`, but its mean rating is 0, so the
`rating > 0` output filter drops the entry entirely. -/
theorem c2_counterexample :
    matchingMovies [movieZero] actionGenre.id ≠ [] ∧
    ({ genre := actionGenre.name,
       rating := avgRating (matchingMovies [movieZero] actionGenre.id) } :
        GenreRating) ∉ genreRatings [movieZero] [actionGenre] := by
  constructor
  · decide
  · norm_num [genreRatings, matchingMovies, avgRating, movieZero, actionGenre]

/-- Claim C2, amended: the aggregate contains, for each genre whose matching
movies (movies whose genre-identifier set contains the genre's id) have a
strictly positive arithmetic mean of average ratings, an entry with exactly
that mean; and every entry of the aggregate arises from a genre with at
least one matching movie and carries exactly the mean of its matching
movies' ratings (so genres with zero matching movies — mean computed as
0 — never appear, and neither do genres whose mean is 0). -/
theorem genreRatings_spec (ms : List Movie) (gs : List Genre) :
    (∀ g, g ∈ gs → 0 < avgRating (matchingMovies ms g.id) →
      ({ genre := g.name, rating := avgRating (matchingMovies ms g.id) } :
          GenreRating) ∈ genreRatings ms gs) ∧
    (∀ e, e ∈ genreRatings ms gs → ∃ g, g ∈ gs ∧
      matchingMovies ms g.id ≠ [] ∧ e.genre = g.name ∧
      e.rating = avgRating (matchingMovies ms g.id) ∧ 0 < e.rating) := by
  constructor
  · intro g hg hpos
    simp only [genreRatings, List.mem_filter]
    exact ⟨List.mem_map_of_mem _ hg, decide_eq_true hpos⟩
  · intro e he
    simp only [genreRatings, List.mem_filter, List.mem_map] at he
    obtain ⟨⟨g, hg, rfl⟩, hpos⟩ := he
    rw [decide_eq_true_eq] at hpos
    exact ⟨g, hg, avgRating_pos_ne_nil hpos, rfl, rfl, hpos⟩

/-- Witness for the amended C2 at a concrete input: genre 2 matched by
`movieB` (rating 5) yields the aggregate entry (Drama, 5). -/
theorem genreRatings_spec_witness :
    ({ genre := dramaGenre.name,
       rating := avgRating (matchingMovies [movieB] dramaGenre.id) } :
        GenreRating) ∈ genreRatings [movieB] [dramaGenre] :=
  (genreRatings_spec [movieB] [dramaGenre]).1 dramaGenre (by decide) (by
    norm_num [avgRating, matchingMovies, movieB, dramaGenre])

/-- Claim C10: every entry of the genre rating aggregate has a strictly
positive rating (the output filter keeps only `rating > 0`); concretely,
genre 7, all of whose matching movies (`movieZero`) have average rating 0,
is excluded from the aggregate even though it has a matching movie. -/
theorem genreRatings_pos :
    (∀ (ms : List Movie) (gs : List Genre) e,
      e ∈ genreRatings ms gs → 0 < e.rating) ∧
    (genreRatings [movieZero] [actionGenre] = [] ∧
      matchingMovies [movieZero] actionGenre.id ≠ []) := by
  refine ⟨?_, ?_, by decide⟩
  · intro ms gs e he
    simp only [genreRatings, List.mem_filter] at he
    exact of_decide_eq_true he.2
  · norm_num [genreRatings, matchingMovies, avgRating, movieZero, actionGenre]

/-- Witness for C10 at a concrete input: the single aggregate entry of
(`[movieB]`, `[dramaGenre]`) is (Drama, 5), whose rating is positive. -/
theorem genreRatings_pos_witness :
    0 < ({ genre := "Drama", rating := 5 } : GenreRating).rating :=
  genreRatings_pos.1 [movieB] [dramaGenre] _ (by
    norm_num [genreRatings, matchingMovies, avgRating, movieB, dramaGenre])

end MovieDashboard
